import Mathlib

/-!
Shallow embedding of the SPATEN streaming container decoder
(`src/lib.rs` of thomersch/rust-spaten).

The input stream is modelled as a `List Nat` of bytes (each `< 256` in any
meaningful run), read through an in-memory cursor, matching the `Cursor` /
`File` readers the crate is used and tested with: a single `Read::read`
call on such a reader copies `min (buffer length) (bytes remaining)` bytes
into the front of the buffer, leaves the rest of the buffer untouched, and
never returns an I/O error.  Rust panics (`assert_eq!`, `expect`, slice
bounds, `Vec::remove` out of bounds) are modelled as `Except.error` values.
-/

namespace Spaten

/-- Model of one `Read::read(&mut buf)` call on an in-memory cursor:
copies `min buf.length s.length` bytes of the stream `s` into the front of
`buf`, keeping the untouched tail of `buf`, and returns the new buffer
contents together with the remaining stream.  (The byte count the call
returns is `min buf.length s.length`; the code never inspects it, so it is
not returned here.) -/
def readBuf (s : List Nat) (buf : List Nat) : List Nat × List Nat :=
  let k := min buf.length s.length
  (s.take k ++ buf.drop k, s.drop k)

/-- `u32::from_le_bytes` on a 4-byte buffer `[a, b, c, d]`. -/
def leDecode4 (l : List Nat) : Nat :=
  match l with
  | [a, b, c, d] => a + 256 * b + 65536 * c + 16777216 * d
  | _ => 0

/-- Errors of `read_file_header`: the two `assert_eq!` panics.  (The
`expect` calls guard genuine I/O failures of `Read::read`, which an
in-memory cursor never produces, so they have no counterpart here.) -/
inductive HeaderError
  | badMagic
  | badVersion
  deriving DecidableEq, Repr

/-- Embedding of `read_file_header` (src/lib.rs lines 92-99): read 4 bytes
into a zero-initialised buffer and assert them equal to `"SPAT"`, then read
4 more bytes into the *same* buffer (Rust reuses `buf`) and assert them all
zero.  Returns the remaining stream on success. -/
def read_file_header (s : List Nat) : Except HeaderError (List Nat) :=
  let r1 := readBuf s [0, 0, 0, 0]
  if r1.1 = [83, 80, 65, 84] then
    let r2 := readBuf r1.2 r1.1
    if r2.1 = [0, 0, 0, 0] then .ok r2.2 else .error .badVersion
  else .error .badMagic

/-- Errors of `read_block`: the three `assert_eq!` panics on the header
subfields.  The `if let Err` branch on the length read and the `expect`
calls guard I/O failures of `Read::read`, which an in-memory cursor never
produces, so they have no counterpart here. -/
inductive BlockError
  | badFlags
  | badCompression
  | badMessageType
  deriving DecidableEq, Repr

/-- Embedding of `read_block` (src/lib.rs lines 101-132): read 4 length
bytes into a zero-initialised buffer, decode little-endian; length 0 is the
end-of-stream sentinel (`none`); otherwise assert 2 zero flag bytes, 1 zero
compression byte, 1 zero message-type byte, then read `bodylen` body bytes
into a zero-initialised vector with a single `Read::read` call (the source
uses `read`, not `read_exact`, so a short read leaves the zero tail in
place).  Returns the optional body and the remaining stream. -/
def read_block (s : List Nat) : Except BlockError (Option (List Nat) × List Nat) :=
  let r1 := readBuf s [0, 0, 0, 0]
  let bodylen := leDecode4 r1.1
  if bodylen = 0 then .ok (none, r1.2)
  else
    let rf := readBuf r1.2 [0, 0]
    if rf.1 = [0, 0] then
      let rc := readBuf rf.2 [0]
      if rc.1 = [0] then
        let rm := readBuf rc.2 [0]
        if rm.1 = [0] then
          let rb := readBuf rm.2 (List.replicate bodylen 0)
          .ok (some rb.1, rb.2)
        else .error .badMessageType
      else .error .badCompression
    else .error .badFlags

/-- The `fileformat::Tag_ValueType` protobuf enum referenced by
`Value::from_bytes` (its three variants STRING / INT / DOUBLE are the ones
used in src/lib.rs). -/
inductive Tag_ValueType
  | STRING
  | INT
  | DOUBLE
  deriving DecidableEq, Repr

/-- The `Value` enum (src/lib.rs lines 9-13).  Rust text is modelled as the
list of Unicode scalar values of the `String`; an `f64` is modelled by its
64-bit IEEE-754 bit pattern (a `Nat < 2^64`), which is exact because
`f64::from_le_bytes` / `f64::to_le_bytes` transport bits unchanged and the
decoder performs no floating-point arithmetic. -/
inductive Value
  | String (s : List Nat)
  | Integer (i : Int)
  | Float (bits : Nat)
  deriving DecidableEq, Repr

/-- Little-endian value of a list of bytes (`foldr` form). -/
def leDecodeList : List Nat → Nat
  | [] => 0
  | b :: t => b + 256 * leDecodeList t

/-- Interpret a `Nat < 2^64` as an `i64` (two's complement), the effect of
`i64::from_le_bytes` on the little-endian value of the 8 bytes. -/
def asI64 (n : Nat) : Int :=
  if n < 2 ^ 63 then (n : Int) else (n : Int) - 2 ^ 64

/-- Model of Rust `String::from_utf8_lossy`: decode UTF-8, replacing each
maximal invalid subpart with U+FFFD (the "substitution of maximal subparts"
policy implemented by `core::str`'s validator: on an invalid continuation
byte only the bytes of the valid prefix of the sequence are consumed, and
decoding resumes at the offending byte).  Output is the list of Unicode
scalar values. -/
def utf8Lossy : List Nat → List Nat
  | [] => []
  | b :: rest =>
    if b < 0x80 then
      b :: utf8Lossy rest
    else if 0xC2 ≤ b ∧ b ≤ 0xDF then
      match rest with
      | [] => [0xFFFD]
      | c1 :: r1 =>
        if 0x80 ≤ c1 ∧ c1 ≤ 0xBF then
          ((b - 0xC0) * 64 + (c1 - 0x80)) :: utf8Lossy r1
        else
          0xFFFD :: utf8Lossy (c1 :: r1)
    else if 0xE0 ≤ b ∧ b ≤ 0xEF then
      match rest with
      | [] => [0xFFFD]
      | c1 :: r1 =>
        if (b = 0xE0 ∧ 0xA0 ≤ c1 ∧ c1 ≤ 0xBF)
            ∨ (0xE1 ≤ b ∧ b ≤ 0xEC ∧ 0x80 ≤ c1 ∧ c1 ≤ 0xBF)
            ∨ (b = 0xED ∧ 0x80 ≤ c1 ∧ c1 ≤ 0x9F)
            ∨ (0xEE ≤ b ∧ b ≤ 0xEF ∧ 0x80 ≤ c1 ∧ c1 ≤ 0xBF) then
          match r1 with
          | [] => [0xFFFD]
          | c2 :: r2 =>
            if 0x80 ≤ c2 ∧ c2 ≤ 0xBF then
              ((b - 0xE0) * 4096 + (c1 - 0x80) * 64 + (c2 - 0x80)) :: utf8Lossy r2
            else
              0xFFFD :: utf8Lossy (c2 :: r2)
        else
          0xFFFD :: utf8Lossy (c1 :: r1)
    else if 0xF0 ≤ b ∧ b ≤ 0xF4 then
      match rest with
      | [] => [0xFFFD]
      | c1 :: r1 =>
        if (b = 0xF0 ∧ 0x90 ≤ c1 ∧ c1 ≤ 0xBF)
            ∨ (0xF1 ≤ b ∧ b ≤ 0xF3 ∧ 0x80 ≤ c1 ∧ c1 ≤ 0xBF)
            ∨ (b = 0xF4 ∧ 0x80 ≤ c1 ∧ c1 ≤ 0x8F) then
          match r1 with
          | [] => [0xFFFD]
          | c2 :: r2 =>
            if 0x80 ≤ c2 ∧ c2 ≤ 0xBF then
              match r2 with
              | [] => [0xFFFD]
              | c3 :: r3 =>
                if 0x80 ≤ c3 ∧ c3 ≤ 0xBF then
                  ((b - 0xF0) * 262144 + (c1 - 0x80) * 4096 + (c2 - 0x80) * 64
                      + (c3 - 0x80)) :: utf8Lossy r3
                else
                  0xFFFD :: utf8Lossy (c3 :: r3)
            else
              0xFFFD :: utf8Lossy (c2 :: r2)
        else
          0xFFFD :: utf8Lossy (c1 :: r1)
    else
      0xFFFD :: utf8Lossy rest
termination_by l => l.length
decreasing_by all_goals (simp only [List.length_cons]; omega)

/-- The panic of `Value::from_bytes` on an undersized INT/DOUBLE buffer:
`src[0..8]` is a slice-bounds violation when `src.len() < 8`. -/
inductive ValueError
  | sliceBounds
  deriving DecidableEq, Repr

namespace Value

/-- Embedding of `Value::from_bytes` (src/lib.rs lines 16-32).
STRING: lossy UTF-8 decoding of the whole buffer, never fails.
INT / DOUBLE: take `src[0..8]` (a slice-bounds panic when the buffer holds
fewer than 8 bytes) and reinterpret the 8 bytes little-endian as an `i64`
(two's complement) resp. an `f64` (bit pattern). -/
def from_bytes (src : List Nat) (field_type : Tag_ValueType) : Except ValueError Value :=
  match field_type with
  | .STRING => .ok (.String (utf8Lossy src))
  | .INT =>
    if src.length < 8 then .error .sliceBounds
    else .ok (.Integer (asI64 (leDecodeList (src.take 8))))
  | .DOUBLE =>
    if src.length < 8 then .error .sliceBounds
    else .ok (.Float (leDecodeList (src.take 8)))

end Value

/-- The standard little-endian 8-byte encoding of a `Nat < 2^64`
(`u64::to_le_bytes` / the byte transport of `f64::to_le_bytes`). -/
def leBytes8 (n : Nat) : List Nat :=
  [n % 256, n / 256 % 256, n / 256 ^ 2 % 256, n / 256 ^ 3 % 256,
   n / 256 ^ 4 % 256, n / 256 ^ 5 % 256, n / 256 ^ 6 % 256, n / 256 ^ 7 % 256]

/-- The standard little-endian 8-byte encoding of an `i64`
(`i64::to_le_bytes`): two's complement, then byte decomposition. -/
def i64ToLeBytes (i : Int) : List Nat :=
  leBytes8 (i % 2 ^ 64).toNat

/-- State of a `FeatureIterator` (src/lib.rs lines 50-53): the owned input
stream and the queue of not-yet-yielded features of the current block.  The
type of features is a parameter: a `Feature` holds a decoded geometry and a
tag map produced by the external protobuf and WKB collaborators, which are
out of scope; the iterator logic never inspects a feature. -/
structure IterState (F : Type) where
  stream : List Nat
  queue : List F
  deriving DecidableEq, Repr

/-- Errors of `FeatureIterator::next`: the `panic!("iterating failed")`
branch on a `read_block` error (the in-block asserts also panic directly;
both are fatal and collapsed into `blockFailed`), and the out-of-bounds
panic of `self.queue.remove(0)` on an empty queue. -/
inductive NextError
  | blockFailed (e : BlockError)
  | removeEmpty
  deriving DecidableEq, Repr

namespace FeatureIterator

/-- Embedding of `FeatureIterator::next` (src/lib.rs lines 78-89),
parameterised by `rb`, the model of `read_body` (the external
protobuf + WKB block-to-feature translation, assumed to succeed): if the
queue is empty, call `read_block`; on `None` return `none`; on a block,
replace the queue by its translated features.  Then unconditionally
`self.queue.remove(0)`: a panic when the queue is (still) empty. -/
def next {F : Type} (rb : List Nat → List F) (st : IterState F) :
    Except NextError (Option F × IterState F) :=
  match st.queue with
  | f :: rest => .ok (some f, ⟨st.stream, rest⟩)
  | [] =>
    match read_block st.stream with
    | .error e => .error (.blockFailed e)
    | .ok (none, s2) => .ok (none, ⟨s2, []⟩)
    | .ok (some b, s2) =>
      match rb b with
      | [] => .error .removeEmpty
      | f :: rest => .ok (some f, ⟨s2, rest⟩)

end FeatureIterator

/-! ### Helper lemmas about the cursor model -/

/-- A `read` whose buffer is no longer than the remaining stream fills the
whole buffer with the next `buf.length` stream bytes. -/
theorem readBuf_exact (pre s buf : List Nat) (h : buf.length = pre.length) :
    readBuf (pre ++ s) buf = (pre, s) := by
  have hk : min buf.length (pre ++ s).length = pre.length := by
    simp [List.length_append, h]
  simp only [readBuf, hk]
  rw [List.take_left, List.drop_left, ← h, List.drop_length, List.append_nil]

/-- A `read` on a stream shorter than the buffer copies the whole remaining
stream into the front of the buffer, keeping the buffer's tail. -/
theorem readBuf_short (s buf : List Nat) (h : s.length ≤ buf.length) :
    readBuf s buf = (s ++ buf.drop s.length, []) := by
  have hk : min buf.length s.length = s.length := by omega
  simp only [readBuf, hk]
  rw [List.take_length, List.drop_length]

/-- Cons-form instance of `readBuf_exact` for a 4-byte buffer. -/
theorem readBuf_cons4 (a b c d x0 x1 x2 x3 : Nat) (s : List Nat) :
    readBuf (a :: b :: c :: d :: s) [x0, x1, x2, x3] = ([a, b, c, d], s) :=
  readBuf_exact [a, b, c, d] s [x0, x1, x2, x3] rfl

/-- Cons-form instance of `readBuf_exact` for a 2-byte buffer. -/
theorem readBuf_cons2 (a b x0 x1 : Nat) (s : List Nat) :
    readBuf (a :: b :: s) [x0, x1] = ([a, b], s) :=
  readBuf_exact [a, b] s [x0, x1] rfl

/-- Cons-form instance of `readBuf_exact` for a 1-byte buffer. -/
theorem readBuf_cons1 (a x0 : Nat) (s : List Nat) :
    readBuf (a :: s) [x0] = ([a], s) :=
  readBuf_exact [a] s [x0] rfl

theorem leBytes8_length (m : Nat) : (leBytes8 m).length = 8 := by
  simp [leBytes8]

theorem leDecode_leBytes8 (m : Nat) : leDecodeList (leBytes8 m) = m % 2 ^ 64 := by
  simp [leBytes8, leDecodeList]
  omega

/-! ### Claim theorems -/

/-- C1: the claim says a block whose nested message holds zero feature
records yields an empty Feature sequence and the iterator continues with
the next block.  The code instead falls through to `self.queue.remove(0)`
on the still-empty queue, an out-of-bounds panic: evaluated here on a
well-formed one-byte block (bodylen 1, zero flags/compression/type, body
`[9]`) whose translation yields no features. -/
theorem featureIterator_empty_block_pull_panics :
    FeatureIterator.next (fun _ => ([] : List Nat))
      ⟨[1, 0, 0, 0, 0, 0, 0, 0, 9], []⟩ = .error .removeEmpty := rfl

/-- C2: the claim says a stream yielding fewer than `bodylen` body bytes
makes `read_block` fail with an IoError.  The code issues a single
`Read::read` into a zero-initialised vector and never checks the count, so
on a block announcing 5 body bytes with only 2 available it returns the
2 bytes zero-padded to length 5, with no error. -/
theorem read_block_short_body_zero_padded :
    read_block [5, 0, 0, 0, 0, 0, 0, 0, 7, 8] = .ok (some [7, 8, 0, 0, 0], []) := rfl

/-- C3 counterexample: exhaustion of the iterator is not sticky.  On a
stream holding a zero-length sentinel followed by a further well-formed
block, the first pull signals "no value", yet the second pull reads the
following block and yields a feature. -/
theorem featureIterator_not_sticky_after_sentinel :
    FeatureIterator.next (fun _ => ([0] : List Nat))
        ⟨[0, 0, 0, 0, 1, 0, 0, 0, 0, 0, 0, 0, 9], []⟩
      = .ok (none, ⟨[1, 0, 0, 0, 0, 0, 0, 0, 9], []⟩) ∧
    FeatureIterator.next (fun _ => ([0] : List Nat))
        ⟨[1, 0, 0, 0, 0, 0, 0, 0, 9], []⟩
      = .ok (some 0, ⟨[], []⟩) ∧
    ¬ ∃ st, FeatureIterator.next (fun _ => ([0] : List Nat))
        ⟨[1, 0, 0, 0, 0, 0, 0, 0, 9], []⟩ = .ok (none, st) := by
  refine ⟨rfl, rfl, ?_⟩
  rintro ⟨st, hst⟩
  rw [show FeatureIterator.next (fun _ => ([0] : List Nat))
        ⟨[1, 0, 0, 0, 0, 0, 0, 0, 9], []⟩ = .ok (some 0, ⟨[], []⟩) from rfl] at hst
  simp at hst

/-- C3 amended: after a pull signals "no value" the state has an empty
queue and the stream advanced past the sentinel; every subsequent pull
issues another read.  When no bytes remain after the sentinel that read
returns nothing, so every subsequent pull again signals "no value" and
leaves the state unchanged; bytes present after the sentinel are instead
read as further blocks. -/
theorem featureIterator_sticky_on_empty_stream {F : Type} (rb : List Nat → List F)
    (st : IterState F) (h1 : st.stream = []) (h2 : st.queue = []) :
    FeatureIterator.next rb st = .ok (none, st) := by
  rcases st with ⟨stream, queue⟩
  dsimp only at h1 h2
  subst h1
  subst h2
  rfl

/-- Witness for the amended C3 theorem at a concrete exhausted state. -/
theorem featureIterator_sticky_on_empty_stream_witness :
    FeatureIterator.next (fun _ => ([] : List Nat)) ⟨[], []⟩ = .ok (none, ⟨[], []⟩) :=
  featureIterator_sticky_on_empty_stream (fun _ => ([] : List Nat)) ⟨[], []⟩ rfl rfl

/-- C8: `read_block` on a stream whose next 4 bytes are all zero returns
"no more blocks" and leaves exactly the bytes after those 4 unconsumed —
no flag, compression, message-type, or body bytes are read. -/
theorem read_block_sentinel_reads_only_four (s : List Nat) :
    read_block (0 :: 0 :: 0 :: 0 :: s) = .ok (none, s) := by
  simp [read_block, readBuf_cons4, leDecode4]

/-- C10 counterexample: a stream exhausted mid-length-field is not always
read as "no more blocks".  On the 1-byte stream `[1]` the length read
returns a single byte, the pre-zeroed buffer decodes to bodylen 1, the
flag/compression/type reads return nothing (their pre-zeroed buffers pass
the asserts), and `read_block` returns a zero-padded 1-byte body — not the
end-of-stream signal. -/
theorem read_block_truncated_nonzero_partial :
    read_block [1] = .ok (some [0], []) ∧ read_block [1] ≠ .ok (none, []) := by
  refine ⟨rfl, ?_⟩
  intro hcontra
  rw [show read_block [1] = .ok (some [0], []) from rfl] at hcontra
  simp at hcontra

/-- C10 amended: when every byte the length read obtains is zero — in
particular when the stream is already exhausted and the read returns
nothing — the pre-zeroed length buffer decodes to bodylen 0 and
`read_block` returns "no more blocks", so a truncated stream that ends
cleanly before (or inside, with zero bytes) the length field is
indistinguishable from a properly terminated one and raises no error.
Nonzero partial length bytes are instead zero-extended into a body length
(see the counterexample). -/
theorem read_block_zero_prefix_no_more_blocks (s : List Nat)
    (h : ∀ b ∈ s.take 4, b = 0) : read_block s = .ok (none, s.drop 4) := by
  rcases s with _ | ⟨a, _ | ⟨b, _ | ⟨c, _ | ⟨d, t⟩⟩⟩⟩
  · rfl
  · have ha : a = 0 := h a (by simp)
    subst ha; rfl
  · have ha : a = 0 := h a (by simp)
    have hb : b = 0 := h b (by simp)
    subst ha; subst hb; rfl
  · have ha : a = 0 := h a (by simp)
    have hb : b = 0 := h b (by simp)
    have hc : c = 0 := h c (by simp)
    subst ha; subst hb; subst hc; rfl
  · have ha : a = 0 := h a (by simp)
    have hb : b = 0 := h b (by simp)
    have hc : c = 0 := h c (by simp)
    have hd : d = 0 := h d (by simp)
    subst ha; subst hb; subst hc; subst hd
    simp [read_block, readBuf_cons4, leDecode4]

/-- Witness for the amended C10 theorem at the empty (fully truncated)
stream. -/
theorem read_block_zero_prefix_no_more_blocks_witness :
    read_block [] = .ok (none, []) :=
  read_block_zero_prefix_no_more_blocks [] (by simp)

/-- C4: `read_file_header` accepts a stream exactly when its first 8 bytes
are `"SPAT"` (83, 80, 65, 84) followed by 4 zero bytes; every other stream
(including every stream shorter than 8 bytes) is rejected with a format
panic.  Short reads cannot fake a match: a partial first read leaves zero
bytes in the buffer where the nonzero magic is expected, and a partial
second read leaves nonzero magic bytes in the reused buffer where zeros
are expected. -/
theorem read_file_header_accepts_iff_magic (s : List Nat) :
    (read_file_header s).isOk = true ↔ s.take 8 = [83, 80, 65, 84, 0, 0, 0, 0] := by
  rcases s with _ | ⟨a, _ | ⟨b, _ | ⟨c, _ | ⟨d, _ | ⟨e, _ | ⟨f, _ | ⟨g, _ | ⟨h8, t⟩⟩⟩⟩⟩⟩⟩⟩
  all_goals
    simp only [read_file_header, readBuf_cons4, readBuf_short, Except.isOk]
  all_goals split_ifs <;>
    simp_all [readBuf_cons4, readBuf_short, Except.isOk, Except.toBool]

/-- Witness for C4 at a concrete accepted and a concrete rejected
8-byte prefix. -/
theorem read_file_header_accepts_iff_magic_witness :
    (read_file_header [83, 80, 65, 84, 0, 0, 0, 0]).isOk = true ∧
    ¬ (read_file_header [83, 80, 65, 84, 1, 0, 0, 0]).isOk = true := by
  constructor
  · exact (read_file_header_accepts_iff_magic [83, 80, 65, 84, 0, 0, 0, 0]).mpr (by decide)
  · intro hacc
    have := (read_file_header_accepts_iff_magic [83, 80, 65, 84, 1, 0, 0, 0]).mp hacc
    simp at this

/-- C5: on a well-formed non-sentinel block header (8 header bytes
available, nonzero body length), a nonzero value in either flag byte, the
compression byte, or the message-type byte causes `read_block` to fail
with a format panic rather than being skipped. -/
theorem read_block_nonzero_reserved_fields_error
    (a b c d f0 f1 cp mt : Nat) (rest : List Nat)
    (hlen : ¬(a = 0 ∧ b = 0 ∧ c = 0 ∧ d = 0))
    (hbad : ¬(f0 = 0 ∧ f1 = 0) ∨ cp ≠ 0 ∨ mt ≠ 0) :
    ∃ err, read_block (a :: b :: c :: d :: f0 :: f1 :: cp :: mt :: rest) = .error err := by
  simp only [read_block, readBuf_cons4, readBuf_cons2, readBuf_cons1, leDecode4]
  rw [if_neg (by omega)]
  by_cases hf : f0 = 0 ∧ f1 = 0
  · rw [if_pos (by simp [hf.1, hf.2])]
    by_cases hc : cp = 0
    · rw [if_pos (by simp [hc])]
      have hmt : mt ≠ 0 := by
        rcases hbad with h | h | h
        · exact absurd hf h
        · exact absurd hc h
        · exact h
      rw [if_neg (by simp [hmt])]
      exact ⟨_, rfl⟩
    · rw [if_neg (by simp [hc])]
      exact ⟨_, rfl⟩
  · rw [if_neg (by simp; omega)]
    exact ⟨_, rfl⟩

/-- Witness for C5 at a concrete header with a nonzero first flag byte. -/
theorem read_block_nonzero_reserved_fields_error_witness :
    ∃ err, read_block [1, 0, 0, 0, 1, 0, 0, 0] = .error err :=
  read_block_nonzero_reserved_fields_error 1 0 0 0 1 0 0 0 []
    (by decide) (Or.inl (by decide))

/-- `Value::from_bytes` with type INT on an 8-byte little-endian encoding
decodes the two's-complement value. -/
theorem from_bytes_INT_leBytes8 (m : Nat) :
    Value.from_bytes (leBytes8 m) .INT = .ok (.Integer (asI64 (m % 2 ^ 64))) := by
  have h1 : ¬ (leBytes8 m).length < 8 := by simp [leBytes8_length]
  have h2 : (leBytes8 m).take 8 = leBytes8 m := by simp [leBytes8]
  simp only [Value.from_bytes, if_neg h1, h2, leDecode_leBytes8]

/-- C6: `decodeValue` round-trips fixed-width numbers.  Every `i64`
(two's-complement range) encoded as its 8 little-endian bytes and decoded
with type INT yields the original integer; every 64-bit IEEE-754 bit
pattern encoded as its 8 little-endian bytes and decoded with type DOUBLE
yields the original pattern bit-for-bit (`f64::to_le_bytes` /
`f64::from_le_bytes` transport the bits unchanged, so the bit pattern is
the faithful model of the float value, NaN and infinities included). -/
theorem from_bytes_roundtrip_int_double :
    (∀ i : Int, -(2 ^ 63) ≤ i → i < 2 ^ 63 →
      Value.from_bytes (i64ToLeBytes i) .INT = .ok (.Integer i)) ∧
    (∀ n : Nat, n < 2 ^ 64 →
      Value.from_bytes (leBytes8 n) .DOUBLE = .ok (.Float n)) := by
  constructor
  · intro i hlo hhi
    unfold i64ToLeBytes
    rw [from_bytes_INT_leBytes8]
    have : asI64 ((i % 2 ^ 64).toNat % 2 ^ 64) = i := by
      unfold asI64
      have e1 : ((2 : Int) ^ 64) = 18446744073709551616 := by norm_num
      have e2 : ((2 : Int) ^ 63) = 9223372036854775808 := by norm_num
      rw [e1, e2] at *
      split_ifs <;> omega
    rw [this]
  · intro n hn
    have h1 : ¬ (leBytes8 n).length < 8 := by simp [leBytes8_length]
    have h2 : (leBytes8 n).take 8 = leBytes8 n := by simp [leBytes8]
    simp only [Value.from_bytes, if_neg h1, h2, leDecode_leBytes8,
      Nat.mod_eq_of_lt hn]

/-- Witness for C6 at `i64::MIN`, `0`, `i64::MAX` and the canonical quiet
NaN bit pattern `0x7FF8000000000000`. -/
theorem from_bytes_roundtrip_int_double_witness :
    Value.from_bytes (i64ToLeBytes (-(2 ^ 63))) .INT = .ok (.Integer (-(2 ^ 63))) ∧
    Value.from_bytes (i64ToLeBytes 0) .INT = .ok (.Integer 0) ∧
    Value.from_bytes (i64ToLeBytes (2 ^ 63 - 1)) .INT = .ok (.Integer (2 ^ 63 - 1)) ∧
    Value.from_bytes (leBytes8 0x7FF8000000000000) .DOUBLE
      = .ok (.Float 0x7FF8000000000000) :=
  ⟨from_bytes_roundtrip_int_double.1 (-(2 ^ 63)) (by norm_num) (by norm_num),
   from_bytes_roundtrip_int_double.1 0 (by norm_num) (by norm_num),
   from_bytes_roundtrip_int_double.1 (2 ^ 63 - 1) (by norm_num) (by norm_num),
   from_bytes_roundtrip_int_double.2 0x7FF8000000000000 (by norm_num)⟩

/-- C7: `Value::from_bytes` with type INT or DOUBLE on a buffer of fewer
than 8 bytes is a fatal decoding error: the slice `src[0..8]` is an
out-of-bounds panic, not a returned `Value`. -/
theorem from_bytes_short_buffer_panics (src : List Nat) (h : src.length < 8) :
    Value.from_bytes src .INT = .error .sliceBounds ∧
    Value.from_bytes src .DOUBLE = .error .sliceBounds := by
  constructor <;> simp [Value.from_bytes, h]

/-- Witness for C7 at a concrete 3-byte buffer. -/
theorem from_bytes_short_buffer_panics_witness :
    Value.from_bytes [1, 2, 3] .INT = .error .sliceBounds ∧
    Value.from_bytes [1, 2, 3] .DOUBLE = .error .sliceBounds :=
  from_bytes_short_buffer_panics [1, 2, 3] (by decide)

/-- C9: `Value::from_bytes` with type STRING never fails — it returns the
lossy UTF-8 decoding of the whole buffer — and on the invalid UTF-8 bytes
`[0xFF, 0xFE]` the result contains the Unicode replacement character
U+FFFD (65533); in fact it is two replacement characters. -/
theorem from_bytes_string_lossy_never_fails :
    (∀ src, Value.from_bytes src .STRING = .ok (.String (utf8Lossy src))) ∧
    ∃ out, Value.from_bytes [255, 254] .STRING = .ok (.String out) ∧ 65533 ∈ out := by
  have hcomp : utf8Lossy [255, 254] = [65533, 65533] := by
    simp [utf8Lossy]
  exact ⟨fun src => rfl,
    [65533, 65533], by simp [Value.from_bytes, hcomp], by decide⟩

end Spaten
